import Mathlib

/-!
Verification of the fimo-sync change-synchronization engine
(`src/bin/fimo-sync/sync.rs`).

The engine is embedded shallowly:

* `Bson` models the subset of BSON values relevant to checkpointing and
  filtering; `Document` is an ordered association list of fields, as the
  `mongodb::bson::Document` the code manipulates.
* `MFilter` is the abstract syntax of the query filters the code builds with
  the `doc!` macro, and `MFilter.matches` its matching semantics over a
  document (using the BSON total comparison order).
* `buildFilter` embeds the filter construction of `start_sync`
  (sync.rs lines 189-202); `ckptUpdate` the checkpoint advance
  (lines 245-273); `fieldStep` one iteration of the field-polling loop
  (lines 188-280); `liveRun` the change-stream loop (lines 113-167);
  `process_change_event` and `write_to_target` their namesakes.
* External I/O (the MongoDB server, file system) is modelled by oracle
  inputs (`FieldEnv`, the `writes` oracle of `liveRun`) and by an effect
  trace (`Effect`) recording the order of writes, checkpoint saves, health
  touches and sleeps that the loop body performs.
-/

/-- Model of `mongodb::bson::Bson` restricted to the value shapes the sync
engine stores and compares: integers, strings, ObjectIds, booleans, null. -/
inductive Bson where
  | null : Bson
  | int (i : Int) : Bson
  | str (s : String) : Bson
  | objectId (oid : String) : Bson
  | boolean (b : Bool) : Bson
deriving DecidableEq, Repr

/-- BSON type rank, following MongoDB's cross-type sort order
(Null < Numbers < Strings < ObjectIds < Booleans for the types we model). -/
def Bson.typeRank : Bson → Nat
  | .null => 0
  | .int _ => 1
  | .str _ => 2
  | .objectId _ => 3
  | .boolean _ => 4

/-- Total comparison on modelled BSON values: first by type rank, then by
the value inside the type, as MongoDB sorts and compares them. -/
def bsonCompare : Bson → Bson → Ordering
  | .null, .null => .eq
  | .int a, .int b => compare a b
  | .str a, .str b => compare a b
  | .objectId a, .objectId b => compare a b
  | .boolean a, .boolean b => compare a b
  | a, b => compare a.typeRank b.typeRank

/-- A BSON document: an ordered list of (field name, value) pairs, as
`mongodb::bson::Document` is an ordered map. -/
def Document : Type := List (String × Bson)

instance : DecidableEq Document := by unfold Document; infer_instance

instance : Repr Document := by unfold Document; infer_instance

/-- Model of `Document::get`: first value bound to the key, if any. -/
def Document.get (d : Document) (k : String) : Option Bson :=
  match d.find? (fun p => p.fst = k) with
  | some p => some p.snd
  | none => none

/-- Model of `Document::get_object_id`: the value bound to the key when it is an
ObjectId; `None` models the `Err`/missing cases (the code always uses it
through `.ok()`). -/
def Document.get_object_id (d : Document) (k : String) : Option String :=
  match d.get k with
  | some (Bson.objectId oid) => some oid
  | _ => none

/-- Abstract syntax of the query filters `start_sync` builds with `doc!`:
the empty filter, `{ f: { "$gt": v } }`, the equality clause `{ f: v }`,
and binary `$or` / `$and` (the code always passes two-element arrays). -/
inductive MFilter where
  | empty : MFilter
  | cmpGt (f : String) (v : Bson) : MFilter
  | eqF (f : String) (v : Bson) : MFilter
  | orF (a b : MFilter) : MFilter
  | andF (a b : MFilter) : MFilter
deriving DecidableEq, Repr

/-- Matching semantics of the filter language over one document, with BSON
comparison order giving `$gt` and equality; a missing field matches
neither a `$gt` nor an equality clause. -/
def MFilter.matches : MFilter → Document → Bool
  | .empty, _ => true
  | .cmpGt f v, d =>
    match d.get f with
    | some w => bsonCompare w v == .gt
    | none => false
  | .eqF f v, d =>
    match d.get f with
    | some w => bsonCompare w v == .eq
    | none => false
  | .orF a b, d => a.matches d || b.matches d
  | .andF a b, d => a.matches d && b.matches d

/-- The filter construction of `start_sync` (sync.rs lines 189-202):
with no resume value the filter is empty; with a resume value and
`field == "_id"` it is a plain `$gt`; otherwise it is
`$or [ {field: {$gt: v}}, $and [ {field: v}, {_id: {$gt: last_id}} ] ]`,
where the code calls `.unwrap()` on `last_id` — `none` models that panic. -/
def buildFilter (field : String) (resume_value last_id : Option Bson) :
    Option MFilter :=
  match resume_value with
  | some value =>
    if field = "_id" then
      some (MFilter.cmpGt field value)
    else
      match last_id with
      | some lid =>
        some (MFilter.orF (MFilter.cmpGt field value)
          (MFilter.andF (MFilter.eqF field value) (MFilter.cmpGt "_id" lid)))
      | none => none
  | none => some MFilter.empty

/-- The on-disk checkpoint record of field mode (sync.rs struct
`ResumeCheckpoint`): the last synced field value and the identity
tiebreaker. -/
structure ResumeCheckpoint where
  value : Bson
  _id : Bson
deriving DecidableEq, Repr

/-- One upsert-replace write keyed by identity, as built by both branches of
`write_to_target` (a `ReplaceOneModel` with filter `{_id: id}`, the document
as replacement, and `upsert: true`). -/
structure WriteOp where
  filterId : Bson
  replacement : Document
  upsert : Bool
deriving DecidableEq, Repr

/-- The per-document operation construction shared by both write strategies
(sync.rs lines 323-335 and 341-349): a document yields an upsert-replace
keyed by its `_id`, and a document without `_id` yields no operation. -/
def mkReplaceOp (d : Document) : Option WriteOp :=
  (d.get "_id").map (fun i => { filterId := i, replacement := d, upsert := true })

/-- Embedding of `write_to_target` (sync.rs lines 315-368). The returned
list is the sequence of upsert-replace operations actually issued; documents
lacking `_id` are dropped by `filter_map` / `if let` before any write.
`bulkOutcome` is the external server response to the atomic `bulk_write`,
which the code propagates with `?`; the fallback strategy logs per-document
and join errors and always returns `Ok(())`. -/
def write_to_target (isMongo8 : Bool) (bulkOutcome : Except String Unit)
    (docs : List Document) : Except String Unit × List WriteOp :=
  let ops := docs.filterMap mkReplaceOp
  if isMongo8 then (bulkOutcome, ops) else (Except.ok (), ops)

/-- Errors that `start_sync` can return from inside its loops: a failed
`find` (`?` on the query), a failed atomic batch write (`?` on
`write_to_target`), and the `last_id.unwrap()` panic. -/
inductive SyncErr where
  | transport (msg : String)
  | writeErr (msg : String)
  | panicked
deriving DecidableEq, Repr

/-- Observable actions of one loop iteration, in the order the code performs
them: issuing the query (with its filter and sort keys), writing a batch to
the target (with the outcome), touching the health file, saving a field-mode
checkpoint, saving a live-mode resume token, and the idle sleep. -/
inductive Effect where
  | query (f : MFilter) (sortKeys : List String)
  | write (b : List Document) (ok : Bool)
  | health
  | save (cp : ResumeCheckpoint)
  | saveToken (t : String)
  | sleepMs (ms : Nat)
deriving DecidableEq, Repr

/-- The idle-backoff update `delay = min(delay * 2, max_delay)` of
sync.rs line 278, with `max_delay = 60_000`. -/
def stepDelay (d : Nat) : Nat := min (d * 2) 60000

/-- The sort specification of sync.rs lines 204-208: `{field: 1}` when the
field is `_id`, else `{field: 1, _id: 1}`; keys listed in significance
order, all ascending. -/
def sortSpecFor (field : String) : List String :=
  if field = "_id" then [field] else [field, "_id"]

/-- Field-mode configuration drawn from the CLI: the sync field, whether a
resume-file path is configured, whether a health file is configured, and the
classification of the target as supporting atomic bulk writes. -/
structure FieldCfg where
  field : String
  hasResumePath : Bool
  healthFile : Bool
  isMongo8 : Bool

/-- External responses for one field-mode iteration: the outcome of the
`find` call and cursor drain (`error` models a failed `find`, and each item
models one `cursor.next()` result), and the server outcome of an atomic
bulk write, should one be issued. -/
structure FieldEnv where
  cursorItems : Except String (List (Except String Document))
  bulkOutcome : Except String Unit

/-- Loop-local state of field mode: in-memory resume position
(`resume_value`, `last_id`), current backoff delay, and the resume-file
contents (`none` = absent). -/
structure FieldState where
  resume_value : Option Bson
  last_id : Option Bson
  delay : Nat
  file : Option ResumeCheckpoint
deriving DecidableEq, Repr

/-- The checkpoint advance of field mode (sync.rs lines 245-273): from the
last fetched document, if the field is `_id` and the document's `_id` is an
ObjectId, set the resume value to it and write the checkpoint file; in the
general case require both the field value and an ObjectId `_id`; in every
other case leave the state and the file untouched. -/
def ckptUpdate (field : String) (hasPath : Bool) :
    Option Document → FieldState → FieldState × List Effect
  | none, st => (st, [])
  | some d, st =>
    if field = "_id" then
      match d.get_object_id "_id" with
      | some oid =>
        let cp : ResumeCheckpoint :=
          { value := Bson.objectId oid, _id := Bson.objectId oid }
        ({ st with resume_value := some (Bson.objectId oid),
                   file := if hasPath then some cp else st.file },
         if hasPath then [Effect.save cp] else [])
      | none => (st, [])
    else
      match d.get field, d.get_object_id "_id" with
      | some value, some oid =>
        let cp : ResumeCheckpoint := { value := value, _id := Bson.objectId oid }
        ({ st with resume_value := some value,
                   last_id := some (Bson.objectId oid),
                   file := if hasPath then some cp else st.file },
         if hasPath then [Effect.save cp] else [])
      | _, _ => (st, [])

/-- One iteration of the field-polling loop (sync.rs lines 188-280):
build the filter, issue the query (a failed `find` propagates as a
transport error), drain the cursor skipping per-document errors, and either
sleep with doubled backoff on an empty batch, or write the batch
(a failed atomic write propagates), touch health, advance the checkpoint
from the last document and reset the backoff floor. -/
def fieldStep (cfg : FieldCfg) (env : FieldEnv) (st : FieldState) :
    List Effect × Except SyncErr FieldState :=
  match buildFilter cfg.field st.resume_value st.last_id with
  | none => ([], Except.error SyncErr.panicked)
  | some filter =>
    let q := Effect.query filter (sortSpecFor cfg.field)
    match env.cursorItems with
    | .error e => ([q], Except.error (SyncErr.transport e))
    | .ok items =>
      let batch := items.filterMap (fun r => r.toOption)
      let last_doc := batch.getLast?
      if batch.isEmpty then
        ([q, Effect.sleepMs st.delay],
         Except.ok { st with delay := stepDelay st.delay })
      else
        match (write_to_target cfg.isMongo8 env.bulkOutcome batch).fst with
        | .error e => ([q, Effect.write batch false],
                       Except.error (SyncErr.writeErr e))
        | .ok () =>
          let healthFx := if cfg.healthFile then [Effect.health] else []
          let (st', saveFx) := ckptUpdate cfg.field cfg.hasResumePath last_doc st
          (q :: Effect.write batch true :: (healthFx ++ saveFx),
           Except.ok { st' with delay := 10000 })

/-- Model of `mongodb OperationType` restricted to the variants the filter in
`process_change_event` distinguishes. -/
inductive OperationType where
  | insert
  | update
  | replace
  | delete
  | other
deriving DecidableEq, Repr

/-- Model of `ChangeStreamEvent<Document>`: the operation type, the optional
full resulting document (`full_document`), and the opaque resume token
(`id`), stored and replayed but never inspected. -/
structure ChangeEvent where
  operation_type : OperationType
  full_document : Option Document
  id : String
deriving DecidableEq, Repr

/-- Embedding of `process_change_event` (sync.rs lines 288-295): forward the
full document of Insert/Replace/Update events, drop everything else. -/
def process_change_event (change : ChangeEvent) : Option Document :=
  match change.operation_type with
  | .insert | .replace | .update => change.full_document
  | _ => none

/-- One item yielded by `stream.next()`: an event (`Ok`) or a stream error
(`Err`), after which the code breaks out of the loop. -/
inductive StreamItem where
  | ev (c : ChangeEvent)
  | errS (msg : String)
deriving DecidableEq, Repr

/-- Live-mode configuration: batch size (`args.limit.unwrap_or(100)`),
`store_resume`, resume-file path presence, health-file presence, and the
write-strategy classification of the target. -/
structure LiveCfg where
  batchSize : Nat
  storeResume : Bool
  hasResumePath : Bool
  healthFile : Bool
  isMongo8 : Bool

/-- The final flush after the live loop ends (sync.rs lines 153-165, also
reached through the `break` of the error arm): write any non-empty
remaining batch (a failed atomic write propagates with `?`), touch health,
and return `Ok(())`; no resume token is written here. -/
def liveFinish (cfg : LiveCfg) (writes : List (Except String Unit))
    (batch : List Document) : List Effect × Except SyncErr Unit :=
  if batch.isEmpty then ([], Except.ok ())
  else
    match (write_to_target cfg.isMongo8 (writes.headD (Except.ok ())) batch).fst with
    | .error e => ([Effect.write batch false], Except.error (SyncErr.writeErr e))
    | .ok () =>
      (Effect.write batch true ::
         (if cfg.healthFile then [Effect.health] else []), Except.ok ())

/-- Embedding of the live change-stream loop (sync.rs lines 113-167) over a
finite stream prefix. `writes` is the oracle of write outcomes, one per
`write_to_target` call (exhaustion defaults to success). Events are
filtered by `process_change_event`; when the batch reaches the configured
size it is flushed — on success the health file is touched and, when
`store_resume` and a path are set, the current event's resume token is
saved, then the batch is cleared; a failed atomic write propagates. A
stream error breaks out (the error is only printed) and the remaining
batch is flushed as on normal exhaustion. -/
def liveRun (cfg : LiveCfg) :
    List (Except String Unit) → List StreamItem → List Document →
    List Effect × Except SyncErr Unit
  | writes, [], batch => liveFinish cfg writes batch
  | writes, StreamItem.errS _ :: _, batch => liveFinish cfg writes batch
  | writes, StreamItem.ev c :: rest, batch =>
    match process_change_event c with
    | none => liveRun cfg writes rest batch
    | some d =>
      let batch' := batch ++ [d]
      if cfg.batchSize ≤ batch'.length then
        match (write_to_target cfg.isMongo8 (writes.headD (Except.ok ())) batch').fst with
        | .error e => ([Effect.write batch' false],
                       Except.error (SyncErr.writeErr e))
        | .ok () =>
          let fx := Effect.write batch' true ::
            ((if cfg.healthFile then [Effect.health] else []) ++
             (if cfg.storeResume && cfg.hasResumePath then
                [Effect.saveToken c.id] else []))
          let (tr, res) := liveRun cfg writes.tail rest []
          (fx ++ tr, res)
      else
        liveRun cfg writes rest batch'

/-- All documents carried by write effects of a trace, in order. -/
def writtenDocs : List Effect → List Document
  | [] => []
  | Effect.write b _ :: tr => b ++ writtenDocs tr
  | _ :: tr => writtenDocs tr

/-- Trace discipline for checkpoint advancement: scanning left to right with
the outcome of the most recent write (`lastOk`, initially false), every
checkpoint save and resume-token save must sit under a successful most
recent write — i.e. a checkpoint is only ever advanced after its batch's
write has returned success. -/
def checkTrace : Bool → List Effect → Bool
  | _, [] => true
  | _, Effect.write _ ok :: tr => checkTrace ok tr
  | lastOk, Effect.save _ :: tr => lastOk && checkTrace lastOk tr
  | lastOk, Effect.saveToken _ :: tr => lastOk && checkTrace lastOk tr
  | lastOk, _ :: tr => checkTrace lastOk tr

/-- Sort key of a document for a key list: the values of the keys in order,
missing fields reading as null (MongoDB sorts missing lowest). -/
def keyList (keys : List String) (d : Document) : List Bson :=
  keys.map (fun k => (d.get k).getD Bson.null)

/-- Lexicographic less-or-equal on BSON key tuples. -/
def bsonListLe : List Bson → List Bson → Bool
  | [], _ => true
  | _ :: _, [] => false
  | a :: as, b :: bs =>
    match bsonCompare a b with
    | .lt => true
    | .gt => false
    | .eq => bsonListLe as bs

/-- Stable insertion of a document into a list sorted by `le`, placing it
after existing equal keys. -/
def insertSorted (le : Document → Document → Bool) (x : Document) :
    List Document → List Document
  | [] => [x]
  | y :: ys => if le y x then y :: insertSorted le x ys else x :: y :: ys

/-- Stable ascending sort of documents by a key list. -/
def sortDocs (keys : List String) (l : List Document) : List Document :=
  l.foldl
    (fun acc d =>
      insertSorted (fun a b => bsonListLe (keyList keys a) (keyList keys b)) d acc)
    []

/-- Model of the MongoDB `find` the polling source issues (sync.rs lines
210-215): filter the collection, sort ascending by the requested keys, and
apply the limit. -/
def runQuery (coll : List Document) (f : MFilter) (keys : List String)
    (limit : Nat) : List Document :=
  (sortDocs keys (coll.filter (fun d => f.matches d))).take limit

/-- Spec-modelled lower-bound predicate, written from the spec's words:
`field > lastFieldValue`, OR (`field == lastFieldValue` AND
`identity > lastIdentity`); a missing field satisfies neither disjunct. -/
def lowerBoundPred (field : String) (v i : Bson) (d : Document) : Bool :=
  (match d.get field with
   | some w => bsonCompare w v == Ordering.gt
   | none => false) ||
  ((match d.get field with
    | some w => bsonCompare w v == Ordering.eq
    | none => false) &&
   (match d.get "_id" with
    | some w => bsonCompare w i == Ordering.gt
    | none => false))

/-- Spec-modelled plain lower bound `field > lastValue`, the collapsed form
when the sync field is the identity field itself. -/
def plainGtPred (field : String) (v : Bson) (d : Document) : Bool :=
  match d.get field with
  | some w => bsonCompare w v == Ordering.gt
  | none => false

/-- The filter shape the code builds in the general field case. -/
def lbFilter (field : String) (v i : Bson) : MFilter :=
  MFilter.orF (MFilter.cmpGt field v)
    (MFilter.andF (MFilter.eqF field v) (MFilter.cmpGt "_id" i))

/-- C1: in field-polling mode with a loaded checkpoint (resume value `v`,
identity `i`), the query filter the loop issues is exactly the lower-bound
predicate `field > v OR (field == v AND _id > i)`, and when the sync field
is `_id` itself it is the plain `field > v`; the first effect of every loop
iteration is the query carrying that filter. -/
theorem c1_lower_bound_filter (field : String) (v i : Bson) (d : Document)
    (hp hl m8 : Bool) (env : FieldEnv) (del : Nat)
    (fil : Option ResumeCheckpoint) (hne : field ≠ "_id") :
    buildFilter field (some v) (some i) = some (lbFilter field v i) ∧
    MFilter.matches (lbFilter field v i) d = lowerBoundPred field v i d ∧
    buildFilter "_id" (some v) (some i) = some (MFilter.cmpGt "_id" v) ∧
    MFilter.matches (MFilter.cmpGt "_id" v) d = plainGtPred "_id" v d ∧
    (fieldStep ⟨field, hp, hl, m8⟩ env ⟨some v, some i, del, fil⟩).fst.head? =
      some (Effect.query (lbFilter field v i) (sortSpecFor field)) ∧
    (fieldStep ⟨"_id", hp, hl, m8⟩ env ⟨some v, some i, del, fil⟩).fst.head? =
      some (Effect.query (MFilter.cmpGt "_id" v) (sortSpecFor "_id")) := by
  have hb : buildFilter field (some v) (some i) = some (lbFilter field v i) := by
    simp [buildFilter, hne, lbFilter]
  have hb2 : buildFilter "_id" (some v) (some i) =
      some (MFilter.cmpGt "_id" v) := by
    simp [buildFilter]
  refine ⟨hb, rfl, hb2, rfl, ?_, ?_⟩
  · show (fieldStep ⟨field, hp, hl, m8⟩ env ⟨some v, some i, del, fil⟩).fst.head? = _
    unfold fieldStep
    rw [show (⟨some v, some i, del, fil⟩ : FieldState).resume_value = some v from rfl]
    rw [hb]
    rcases env with ⟨ci, bo⟩
    cases ci with
    | error e => rfl
    | ok items =>
      simp only
      split
      · rfl
      · split <;> rfl
  · unfold fieldStep
    rw [hb2]
    rcases env with ⟨ci, bo⟩
    cases ci with
    | error e => rfl
    | ok items =>
      simp only
      split
      · rfl
      · split <;> rfl

/-- Witness for C1 at field `"f"`, resume value 5, identity ObjectId `"a"`,
and a concrete document. -/
theorem c1_lower_bound_filter_witness :
    buildFilter "f" (some (Bson.int 5)) (some (Bson.objectId "a")) =
      some (lbFilter "f" (Bson.int 5) (Bson.objectId "a")) ∧
    MFilter.matches (lbFilter "f" (Bson.int 5) (Bson.objectId "a"))
        ([("f", Bson.int 5), ("_id", Bson.objectId "b")] : Document) =
      lowerBoundPred "f" (Bson.int 5) (Bson.objectId "a")
        ([("f", Bson.int 5), ("_id", Bson.objectId "b")] : Document) ∧
    buildFilter "_id" (some (Bson.int 5)) (some (Bson.objectId "a")) =
      some (MFilter.cmpGt "_id" (Bson.int 5)) ∧
    MFilter.matches (MFilter.cmpGt "_id" (Bson.int 5))
        ([("f", Bson.int 5), ("_id", Bson.objectId "b")] : Document) =
      plainGtPred "_id" (Bson.int 5)
        ([("f", Bson.int 5), ("_id", Bson.objectId "b")] : Document) ∧
    (fieldStep ⟨"f", false, false, false⟩ ⟨Except.ok [], Except.ok ()⟩
        ⟨some (Bson.int 5), some (Bson.objectId "a"), 10000, none⟩).fst.head? =
      some (Effect.query (lbFilter "f" (Bson.int 5) (Bson.objectId "a"))
        (sortSpecFor "f")) ∧
    (fieldStep ⟨"_id", false, false, false⟩ ⟨Except.ok [], Except.ok ()⟩
        ⟨some (Bson.int 5), some (Bson.objectId "a"), 10000, none⟩).fst.head? =
      some (Effect.query (MFilter.cmpGt "_id" (Bson.int 5))
        (sortSpecFor "_id")) :=
  c1_lower_bound_filter "f" (Bson.int 5) (Bson.objectId "a")
    ([("f", Bson.int 5), ("_id", Bson.objectId "b")] : Document) false false false
    ⟨Except.ok [], Except.ok ()⟩ 10000 none (by decide)

/-- C3: an empty poll sleeps the current delay and then doubles it up to the
60000 ceiling; iterating that update N times from the 10000 floor gives
exactly min(10000 * 2^N, 60000) as the sleep delay before the next poll;
and a non-empty, successfully written poll resets the delay to the floor. -/
theorem c3_idle_backoff (cfg : FieldCfg) (N : Nat) (st st2 : FieldState)
    (f f2 : MFilter) (env : FieldEnv) (items : List (Except String Document))
    (hf : buildFilter cfg.field st.resume_value st.last_id = some f)
    (hf2 : buildFilter cfg.field st2.resume_value st2.last_id = some f2)
    (hit : env.cursorItems = Except.ok items)
    (hne : items.filterMap (fun r => r.toOption) ≠ [])
    (hwr : (write_to_target cfg.isMongo8 env.bulkOutcome
        (items.filterMap (fun r => r.toOption))).fst = Except.ok ()) :
    fieldStep cfg ⟨Except.ok [], Except.ok ()⟩ st =
      ([Effect.query f (sortSpecFor cfg.field), Effect.sleepMs st.delay],
       Except.ok { st with delay := stepDelay st.delay }) ∧
    stepDelay^[N] 10000 = min (10000 * 2 ^ N) 60000 ∧
    ((fieldStep cfg env st2).snd.toOption.map FieldState.delay) = some 10000 := by
  refine ⟨?_, ?_, ?_⟩
  · unfold fieldStep
    rw [hf]
    rfl
  · induction N with
    | zero => decide
    | succ n ih =>
      rw [Function.iterate_succ_apply', ih, pow_succ]
      unfold stepDelay
      have h2 : 0 < 2 ^ n := Nat.pos_pow_of_pos n (by decide)
      generalize 2 ^ n = k at *
      omega
  · have hbe : (items.filterMap (fun r => r.toOption)).isEmpty = false := by
      cases h : items.filterMap (fun r => r.toOption) with
      | nil => exact absurd h hne
      | cons a l => rfl
    rcases hcu : ckptUpdate cfg.field cfg.hasResumePath
        ((items.filterMap (fun r => r.toOption)).getLast?) st2 with ⟨stX, fxX⟩
    unfold fieldStep
    rw [hf2, hit]
    simp only [hbe, Bool.false_eq_true, if_false, hwr, hcu]
    rfl

/-- Witness for C3 at N = 3, the floor state, and a one-document poll. -/
theorem c3_idle_backoff_witness :
    fieldStep ⟨"f", false, false, false⟩ ⟨Except.ok [], Except.ok ()⟩
        ⟨none, none, 10000, none⟩ =
      ([Effect.query MFilter.empty (sortSpecFor "f"), Effect.sleepMs 10000],
       Except.ok ⟨none, none, stepDelay 10000, none⟩) ∧
    stepDelay^[3] 10000 = min (10000 * 2 ^ 3) 60000 ∧
    ((fieldStep ⟨"f", false, false, false⟩
        ⟨Except.ok [Except.ok ([("_id", Bson.objectId "a")] : Document)],
         Except.ok ()⟩
        ⟨none, none, 10000, none⟩).snd.toOption.map FieldState.delay) =
      some 10000 :=
  c3_idle_backoff ⟨"f", false, false, false⟩ 3 ⟨none, none, 10000, none⟩
    ⟨none, none, 10000, none⟩ MFilter.empty MFilter.empty
    ⟨Except.ok [Except.ok ([("_id", Bson.objectId "a")] : Document)],
     Except.ok ()⟩
    [Except.ok ([("_id", Bson.objectId "a")] : Document)]
    rfl rfl rfl (by decide) rfl

/-- The three documents of Scenario A: field values [1, 2, 2] with
identities a, b, c. -/
def docA : Document := [("_id", Bson.objectId "a"), ("f", Bson.int 1)]

/-- Scenario A document with field value 2 and identity b. -/
def docB : Document := [("_id", Bson.objectId "b"), ("f", Bson.int 2)]

/-- Scenario A document with field value 2 and identity c. -/
def docC : Document := [("_id", Bson.objectId "c"), ("f", Bson.int 2)]

/-- C7: Scenario A — cold start in field mode (no checkpoint): the filter is
empty, the query sorted by {f: 1, _id: 1} returns the documents in
ascending (field value, identity) order a(1), b(2), c(2) even from a
scrambled collection, and after the flush both the in-memory position and
the persisted checkpoint are {value: 2, _id: c}. -/
theorem c7_cold_start_scenario :
    buildFilter "f" none none = some MFilter.empty ∧
    runQuery [docB, docC, docA] MFilter.empty (sortSpecFor "f") 100 =
      [docA, docB, docC] ∧
    fieldStep ⟨"f", true, false, false⟩
      ⟨Except.ok [Except.ok docA, Except.ok docB, Except.ok docC],
       Except.ok ()⟩
      ⟨none, none, 10000, none⟩ =
      ([Effect.query MFilter.empty ["f", "_id"],
        Effect.write [docA, docB, docC] true,
        Effect.save ⟨Bson.int 2, Bson.objectId "c"⟩],
       Except.ok ⟨some (Bson.int 2), some (Bson.objectId "c"), 10000,
         some ⟨Bson.int 2, Bson.objectId "c"⟩⟩) :=
  ⟨rfl, by decide, by rfl⟩

/-- When the last document's `_id` is not an ObjectId, the checkpoint advance
leaves the state untouched and emits no save, in both the `_id`-field branch
and the general branch. -/
theorem ckptUpdate_no_oid (field : String) (hp : Bool) (d : Document)
    (st : FieldState) (hoid : d.get_object_id "_id" = none) :
    ckptUpdate field hp (some d) st = (st, []) := by
  simp only [ckptUpdate]
  by_cases hfe : field = "_id"
  · rw [if_pos hfe, hoid]
  · rw [if_neg hfe, hoid]
    cases d.get field <;> rfl

/-- C10: in field mode, after a successfully written non-empty page whose
last document's `_id` is not an ObjectId, the step succeeds but the
in-memory resume position and the resume file are left completely unchanged
(only the backoff delay is reset) and no checkpoint save is emitted, so the
next poll rebuilds exactly the same lower-bound filter. -/
theorem c10_non_objectid_frame (cfg : FieldCfg) (env : FieldEnv)
    (st : FieldState) (f : MFilter) (items : List (Except String Document))
    (d : Document)
    (hf : buildFilter cfg.field st.resume_value st.last_id = some f)
    (hit : env.cursorItems = Except.ok items)
    (hlast : (items.filterMap (fun r => r.toOption)).getLast? = some d)
    (hoid : d.get_object_id "_id" = none)
    (hwr : (write_to_target cfg.isMongo8 env.bulkOutcome
        (items.filterMap (fun r => r.toOption))).fst = Except.ok ()) :
    fieldStep cfg env st =
      (Effect.query f (sortSpecFor cfg.field) ::
         Effect.write (items.filterMap (fun r => r.toOption)) true ::
         (if cfg.healthFile then [Effect.health] else []),
       Except.ok { st with delay := 10000 }) ∧
    buildFilter cfg.field ({ st with delay := 10000 } : FieldState).resume_value
      ({ st with delay := 10000 } : FieldState).last_id = some f := by
  have hbe : (items.filterMap (fun r => r.toOption)).isEmpty = false := by
    cases h : items.filterMap (fun r => r.toOption) with
    | nil => rw [h] at hlast; cases hlast
    | cons a l => rfl
  refine ⟨?_, hf⟩
  unfold fieldStep
  rw [hf, hit]
  simp only [hbe, Bool.false_eq_true, if_false, hwr, hlast,
    ckptUpdate_no_oid cfg.field cfg.hasResumePath d st hoid, List.append_nil]

/-- A document whose identity is a string, not an ObjectId. -/
def docX : Document := [("_id", Bson.str "x"), ("f", Bson.int 5)]

/-- Witness for C10: a one-document page whose `_id` is the string "x",
after a checkpoint at (1, ObjectId a): the state and file are unchanged. -/
theorem c10_non_objectid_frame_witness :
    fieldStep ⟨"f", true, false, false⟩
        ⟨Except.ok [Except.ok docX], Except.ok ()⟩
        ⟨some (Bson.int 1), some (Bson.objectId "a"), 30000,
         some ⟨Bson.int 1, Bson.objectId "a"⟩⟩ =
      ([Effect.query (lbFilter "f" (Bson.int 1) (Bson.objectId "a"))
          (sortSpecFor "f"),
        Effect.write [docX] true],
       Except.ok ⟨some (Bson.int 1), some (Bson.objectId "a"), 10000,
         some ⟨Bson.int 1, Bson.objectId "a"⟩⟩) ∧
    buildFilter "f" (some (Bson.int 1)) (some (Bson.objectId "a")) =
      some (lbFilter "f" (Bson.int 1) (Bson.objectId "a")) :=
  c10_non_objectid_frame ⟨"f", true, false, false⟩
    ⟨Except.ok [Except.ok docX], Except.ok ()⟩
    ⟨some (Bson.int 1), some (Bson.objectId "a"), 30000,
     some ⟨Bson.int 1, Bson.objectId "a"⟩⟩
    (lbFilter "f" (Bson.int 1) (Bson.objectId "a"))
    [Except.ok docX] docX rfl rfl rfl rfl rfl

/-- Both strategies issue exactly the operations built by `mkReplaceOp`. -/
theorem write_to_target_snd (m : Bool) (b : Except String Unit)
    (docs : List Document) :
    (write_to_target m b docs).snd = docs.filterMap mkReplaceOp := by
  cases m <;> rfl

/-- The issued operations are: one upsert-replace keyed by `_id` for each
document that has an `_id`, in order; documents without `_id` contribute
nothing. -/
theorem filterMap_mkReplaceOp (docs : List Document) :
    docs.filterMap mkReplaceOp =
      (docs.filter (fun d => (d.get "_id").isSome)).map
        (fun d => { filterId := (d.get "_id").getD Bson.null,
                    replacement := d, upsert := true }) := by
  induction docs with
  | nil => rfl
  | cons d l ih =>
    cases h : d.get "_id" with
    | none => simp [List.filterMap_cons, List.filter_cons, mkReplaceOp, h, ih]
    | some i => simp [List.filterMap_cons, List.filter_cons, mkReplaceOp, h, ih]

/-- C9: under both write strategies, every document lacking `_id` is
filtered out before any write is issued (the issued operations are exactly
one upsert-replace, keyed by the identity, per document that has an `_id`),
absence of identity never makes the call fail (the fallback always returns
success, and the atomic outcome is the same as on the pre-filtered batch),
and Scenario C: a batch of five documents, one without `_id`, yields four
atomic upsert-replace operations and no error. -/
theorem c9_missing_identity_filtered (isMongo8 : Bool)
    (bulk : Except String Unit) (docs : List Document) :
    (write_to_target isMongo8 bulk docs).snd =
      (docs.filter (fun d => (d.get "_id").isSome)).map
        (fun d => { filterId := (d.get "_id").getD Bson.null,
                    replacement := d, upsert := true }) ∧
    (write_to_target false bulk docs).fst = Except.ok () ∧
    (write_to_target isMongo8 bulk docs).fst =
      (write_to_target isMongo8 bulk
        (docs.filter (fun d => (d.get "_id").isSome))).fst ∧
    (write_to_target true (Except.ok ())
        [docA, docB, ([("x", Bson.int 9)] : Document), docC, docX]).snd =
      [⟨Bson.objectId "a", docA, true⟩, ⟨Bson.objectId "b", docB, true⟩,
       ⟨Bson.objectId "c", docC, true⟩, ⟨Bson.str "x", docX, true⟩] ∧
    (write_to_target true (Except.ok ())
        [docA, docB, ([("x", Bson.int 9)] : Document), docC, docX]).fst =
      Except.ok () := by
  refine ⟨?_, rfl, ?_, ?_, rfl⟩
  · rw [write_to_target_snd, filterMap_mkReplaceOp]
  · cases isMongo8 <;> rfl
  · decide

/-- The checkpoint advance emits at most one save effect. -/
theorem ckptUpdate_saves (field : String) (hp : Bool) (ld : Option Document)
    (st : FieldState) :
    (ckptUpdate field hp ld st).snd = [] ∨
      ∃ cp, (ckptUpdate field hp ld st).snd = [Effect.save cp] := by
  cases ld with
  | none => exact Or.inl rfl
  | some d =>
    simp only [ckptUpdate]
    by_cases hfe : field = "_id"
    · rw [if_pos hfe]
      cases d.get_object_id "_id" with
      | none => exact Or.inl rfl
      | some oid =>
        cases hp
        · exact Or.inl rfl
        · exact Or.inr ⟨_, rfl⟩
    · rw [if_neg hfe]
      cases hv : d.get field with
      | none => cases d.get_object_id "_id" <;> exact Or.inl rfl
      | some v =>
        cases d.get_object_id "_id" with
        | none => exact Or.inl rfl
        | some oid =>
          cases hp
          · exact Or.inl rfl
          · exact Or.inr ⟨_, rfl⟩

/-- Every trace a field-mode iteration emits respects the discipline: a
checkpoint save only ever appears after its batch's write returned
success. -/
theorem fieldStep_checkTrace (cfg : FieldCfg) (env : FieldEnv)
    (st : FieldState) :
    checkTrace false (fieldStep cfg env st).fst = true := by
  unfold fieldStep
  cases hb : buildFilter cfg.field st.resume_value st.last_id with
  | none => rfl
  | some f =>
    rcases env with ⟨ci, bo⟩
    cases ci with
    | error e => rfl
    | ok items =>
      simp only
      by_cases hbe : (List.filterMap (fun r => r.toOption) items).isEmpty
      · simp only [hbe, if_true]
        rfl
      · simp only [hbe, Bool.false_eq_true, if_false]
        cases hw : (write_to_target cfg.isMongo8 bo
            (List.filterMap (fun r => r.toOption) items)).fst with
        | error e => rfl
        | ok u =>
          cases u
          rcases hcu : ckptUpdate cfg.field cfg.hasResumePath
              ((List.filterMap (fun r => r.toOption) items).getLast?) st
            with ⟨stX, fxX⟩
          simp only [hcu]
          have hs := ckptUpdate_saves cfg.field cfg.hasResumePath
            ((List.filterMap (fun r => r.toOption) items).getLast?) st
          rw [hcu] at hs
          rcases hs with hs | ⟨cp, hs⟩ <;>
            simp only at hs <;> subst hs <;>
            by_cases hh : cfg.healthFile <;>
            simp [hh, checkTrace]

/-- The final live-mode flush respects the discipline for any incoming
flag. -/
theorem liveFinish_checkTrace (cfg : LiveCfg)
    (writes : List (Except String Unit)) (batch : List Document)
    (flag : Bool) :
    checkTrace flag (liveFinish cfg writes batch).fst = true := by
  unfold liveFinish
  by_cases hbe : batch.isEmpty
  · simp only [hbe, if_true]
    rfl
  · simp only [hbe, Bool.false_eq_true, if_false]
    cases hw : (write_to_target cfg.isMongo8 (writes.headD (Except.ok ()))
        batch).fst with
    | error e => rfl
    | ok u =>
      cases u
      by_cases hh : cfg.healthFile <;> simp [hh, checkTrace]

/-- Every trace the live loop emits respects the discipline for any
incoming flag: saves of the resume token appear only under a successful
most recent write. -/
theorem liveRun_checkTrace (cfg : LiveCfg) (items : List StreamItem) :
    ∀ (writes : List (Except String Unit)) (batch : List Document)
      (flag : Bool),
      checkTrace flag (liveRun cfg writes items batch).fst = true := by
  induction items with
  | nil => intro writes batch flag; exact liveFinish_checkTrace cfg writes batch flag
  | cons it rest ih =>
    intro writes batch flag
    cases it with
    | errS m => exact liveFinish_checkTrace cfg writes batch flag
    | ev c =>
      simp only [liveRun]
      cases hp : process_change_event c with
      | none => exact ih writes batch flag
      | some d =>
        simp only
        by_cases hsz : cfg.batchSize ≤ (batch ++ [d]).length
        · simp only [hsz, if_true]
          cases hw : (write_to_target cfg.isMongo8 (writes.headD (Except.ok ()))
              (batch ++ [d])).fst with
          | error e => rfl
          | ok u =>
            cases u
            rcases hlr : liveRun cfg writes.tail rest [] with ⟨tr, res⟩
            simp only [hlr]
            have htr : checkTrace true tr = true := by
              have := ih writes.tail [] true
              rw [hlr] at this
              exact this
            by_cases hh : cfg.healthFile <;>
              by_cases ht : cfg.storeResume && cfg.hasResumePath <;>
              simp [hh, ht, checkTrace, htr]
        · simp only [hsz, if_false]
          exact ih writes (batch ++ [d]) flag

/-- C2: in both modes the checkpoint is never advanced before the
corresponding batch's write has returned success: scanning any emitted
trace left to right, every field-mode checkpoint save and every live-mode
resume-token save sits under a successful most recent write (starting from
"no write yet"). -/
theorem c2_checkpoint_only_after_write (cfg : FieldCfg) (env : FieldEnv)
    (st : FieldState) (lcfg : LiveCfg) (writes : List (Except String Unit))
    (items : List StreamItem) (batch : List Document) :
    checkTrace false (fieldStep cfg env st).fst = true ∧
    checkTrace false (liveRun lcfg writes items batch).fst = true :=
  ⟨fieldStep_checkTrace cfg env st,
   liveRun_checkTrace lcfg items writes batch false⟩

/-- An all-success atomic or fallback write returns success. -/
theorem write_to_target_ok (m : Bool) (docs : List Document) :
    (write_to_target m (Except.ok ()) docs).fst = Except.ok () := by
  cases m <;> rfl

/-- Write effects of a concatenated trace concatenate. -/
theorem writtenDocs_append (a b : List Effect) :
    writtenDocs (a ++ b) = writtenDocs a ++ writtenDocs b := by
  induction a with
  | nil => rfl
  | cons e tr ih => cases e <;> simp [writtenDocs, ih]

/-- With all writes succeeding, the documents the live loop writes to the
target are exactly the initial buffer followed by the result of filtering
every event through `process_change_event`, regardless of batch size. -/
theorem liveRun_writtenDocs (cfg : LiveCfg) (events : List ChangeEvent) :
    ∀ batch : List Document,
      writtenDocs (liveRun cfg [] (events.map StreamItem.ev) batch).fst =
        batch ++ events.filterMap process_change_event := by
  induction events with
  | nil =>
    intro batch
    simp only [List.map_nil, liveRun]
    unfold liveFinish
    cases batch with
    | nil => rfl
    | cons b bs =>
      simp only [List.isEmpty_cons, Bool.false_eq_true, if_false,
        List.headD_nil, write_to_target_ok]
      by_cases hh : cfg.healthFile <;>
        simp [hh, writtenDocs, List.filterMap_nil]
  | cons c rest ih =>
    intro batch
    simp only [List.map_cons, liveRun]
    cases hp : process_change_event c with
    | none =>
      rw [ih batch]
      simp [List.filterMap_cons, hp]
    | some d =>
      simp only
      by_cases hsz : cfg.batchSize ≤ (batch ++ [d]).length
      · simp only [hsz, if_true, List.headD_nil, write_to_target_ok,
          List.tail_nil]
        rcases hlr : liveRun cfg [] (rest.map StreamItem.ev) [] with ⟨tr, res⟩
        simp only [hlr]
        have htr := ih []
        rw [hlr] at htr
        simp only at htr
        by_cases hh : cfg.healthFile <;>
          by_cases ht : cfg.storeResume && cfg.hasResumePath <;>
          simp [hh, ht, writtenDocs, writtenDocs_append, htr,
            List.filterMap_cons, hp]
      · rw [if_neg hsz, ih (batch ++ [d])]
        simp [List.filterMap_cons, hp]

/-- C8: in live mode exactly the Insert, Update and Replace events are
appended (carrying their full resulting document) and Delete and all other
event types are dropped: the documents written are the events filtered
through `process_change_event`, which forwards the full document of
Insert/Update/Replace and drops Delete/Other; Scenario B —
[Insert(doc1), Delete(doc2), Update(doc3)] yields the batch [doc1, doc3]. -/
theorem c8_event_type_filter (cfg : LiveCfg) (events : List ChangeEvent)
    (batch : List Document) (fd : Option Document) (t : String) :
    writtenDocs (liveRun cfg [] (events.map StreamItem.ev) batch).fst =
      batch ++ events.filterMap process_change_event ∧
    process_change_event ⟨OperationType.insert, fd, t⟩ = fd ∧
    process_change_event ⟨OperationType.update, fd, t⟩ = fd ∧
    process_change_event ⟨OperationType.replace, fd, t⟩ = fd ∧
    process_change_event ⟨OperationType.delete, fd, t⟩ = none ∧
    process_change_event ⟨OperationType.other, fd, t⟩ = none ∧
    liveRun ⟨100, false, false, false, false⟩ []
        [StreamItem.ev ⟨OperationType.insert, some docA, "t1"⟩,
         StreamItem.ev ⟨OperationType.delete, some docB, "t2"⟩,
         StreamItem.ev ⟨OperationType.update, some docC, "t3"⟩] [] =
      ([Effect.write [docA, docC] true], Except.ok ()) :=
  ⟨liveRun_writtenDocs cfg events batch, rfl, rfl, rfl, rfl, rfl, by rfl⟩

/-- Counterexample to C4 as stated: in field mode, a failure of the `find`
call itself (a transport/query read failure) IS raised to the caller and
terminates the sync loop — here a concrete failing query makes the
iteration return the transport error instead of retrying. -/
theorem c4_counterexample :
    fieldStep ⟨"f", false, false, false⟩
        ⟨Except.error "connection reset", Except.ok ()⟩
        ⟨none, none, 10000, none⟩ =
      ([Effect.query MFilter.empty (sortSpecFor "f")],
       Except.error (SyncErr.transport "connection reset")) := rfl

/-- C4 amended: in field-polling mode, per-document read errors while
draining the cursor are only logged and skipped — with the fallback write
strategy the iteration always succeeds whatever mix of document errors the
cursor yields — but a failure of the `find` call itself is raised to the
caller as a transport error and terminates the loop. -/
theorem c4_amended_transport (cfg : FieldCfg) (st st2 : FieldState)
    (f f2 : MFilter) (items : List (Except String Document)) (e : String)
    (bo bo2 : Except String Unit)
    (hf : buildFilter cfg.field st.resume_value st.last_id = some f)
    (hf2 : buildFilter cfg.field st2.resume_value st2.last_id = some f2)
    (hm8 : cfg.isMongo8 = false) :
    (fieldStep cfg ⟨Except.error e, bo⟩ st).snd =
      Except.error (SyncErr.transport e) ∧
    (fieldStep cfg ⟨Except.ok items, bo2⟩ st2).snd.isOk = true := by
  constructor
  · unfold fieldStep
    rw [hf]
  · have hw : (write_to_target cfg.isMongo8 bo2
        (List.filterMap (fun r => r.toOption) items)).fst = Except.ok () := by
      rw [hm8]; rfl
    unfold fieldStep
    rw [hf2]
    simp only
    by_cases hbe : (List.filterMap (fun r => r.toOption) items).isEmpty
    · simp only [hbe, if_true]
      rfl
    · simp only [hbe, Bool.false_eq_true, if_false, hw]
      rcases hcu : ckptUpdate cfg.field cfg.hasResumePath
          ((List.filterMap (fun r => r.toOption) items).getLast?) st2
        with ⟨stX, fxX⟩
      simp only [hcu]
      rfl

/-- Witness for the amended C4: a failing find raises; a cursor with one
document error and one good document still yields a successful iteration
under the fallback strategy. -/
theorem c4_amended_transport_witness :
    (fieldStep ⟨"f", false, false, false⟩
        ⟨Except.error "connection reset", Except.ok ()⟩
        ⟨none, none, 10000, none⟩).snd =
      Except.error (SyncErr.transport "connection reset") ∧
    (fieldStep ⟨"f", false, false, false⟩
        ⟨Except.ok [Except.error "cursor fail", Except.ok docA],
         Except.ok ()⟩
        ⟨none, none, 10000, none⟩).snd.isOk = true :=
  c4_amended_transport ⟨"f", false, false, false⟩
    ⟨none, none, 10000, none⟩ ⟨none, none, 10000, none⟩
    MFilter.empty MFilter.empty
    [Except.error "cursor fail", Except.ok docA] "connection reset"
    (Except.ok ()) (Except.ok ()) rfl rfl rfl

/-- Counterexample to C5 as stated: under the atomic bulk strategy a batch
write failure is fatal — a concrete failing bulk write makes the field-mode
iteration return the write error, terminating the sync loop instead of
proceeding to the next batch. -/
theorem c5_counterexample :
    fieldStep ⟨"f", true, false, true⟩
        ⟨Except.ok [Except.ok docA], Except.error "E11000 duplicate key"⟩
        ⟨none, none, 10000, none⟩ =
      ([Effect.query MFilter.empty (sortSpecFor "f"),
        Effect.write [docA] false],
       Except.error (SyncErr.writeErr "E11000 duplicate key")) := rfl

/-- C5 amended: a batch write failure can only surface from the atomic bulk
strategy (the fallback strategy always returns success, per-document
failures being only logged); when it surfaces it is not merely logged — it
propagates and terminates the sync loop, though the checkpoint for the
failed batch is indeed not advanced (the trace ends at the failed write,
with no save). -/
theorem c5_amended_write_failure (cfg : FieldCfg) (env : FieldEnv)
    (st : FieldState) (f : MFilter) (items : List (Except String Document))
    (msg : String) (bo : Except String Unit) (docs : List Document)
    (hf : buildFilter cfg.field st.resume_value st.last_id = some f)
    (hit : env.cursorItems = Except.ok items)
    (hm8 : cfg.isMongo8 = true)
    (hbo : env.bulkOutcome = Except.error msg)
    (hne : List.filterMap (fun r => r.toOption) items ≠ []) :
    (write_to_target false bo docs).fst = Except.ok () ∧
    fieldStep cfg env st =
      ([Effect.query f (sortSpecFor cfg.field),
        Effect.write (List.filterMap (fun r => r.toOption) items) false],
       Except.error (SyncErr.writeErr msg)) := by
  refine ⟨rfl, ?_⟩
  have hbe : (List.filterMap (fun r => r.toOption) items).isEmpty = false := by
    cases h : List.filterMap (fun r => r.toOption) items with
    | nil => exact absurd h hne
    | cons a l => rfl
  have hw : (write_to_target cfg.isMongo8 env.bulkOutcome
      (List.filterMap (fun r => r.toOption) items)).fst =
      Except.error msg := by
    rw [hm8, hbo]; rfl
  unfold fieldStep
  rw [hf, hit]
  simp only [hbe, Bool.false_eq_true, if_false, hw]

/-- Witness for the amended C5: a failing atomic bulk write on a
one-document batch terminates the iteration with the write error, while the
fallback strategy reports success on the same batch. -/
theorem c5_amended_write_failure_witness :
    (write_to_target false (Except.ok ()) [docA]).fst = Except.ok () ∧
    fieldStep ⟨"f", true, false, true⟩
        ⟨Except.ok [Except.ok docA], Except.error "E11000 duplicate key"⟩
        ⟨none, none, 10000, none⟩ =
      ([Effect.query MFilter.empty (sortSpecFor "f"),
        Effect.write [docA] false],
       Except.error (SyncErr.writeErr "E11000 duplicate key")) :=
  c5_amended_write_failure ⟨"f", true, false, true⟩
    ⟨Except.ok [Except.ok docA], Except.error "E11000 duplicate key"⟩
    ⟨none, none, 10000, none⟩ MFilter.empty [Except.ok docA]
    "E11000 duplicate key" (Except.ok ()) [docA]
    rfl rfl rfl rfl (by decide)

/-- Counterexample to C6 as stated: a change-stream transport error with one
buffered document — the engine flushes the batch and then returns success
(`Ok(())`, exit code 0); the error is never surfaced to the caller. -/
theorem c6_counterexample :
    liveRun ⟨100, false, false, false, false⟩ []
        [StreamItem.ev ⟨OperationType.insert, some docA, "t1"⟩,
         StreamItem.errS "connection reset"] [] =
      ([Effect.write [docA] true], Except.ok ()) := rfl

/-- C6 amended: when the stream terminates with a transport/read error the
engine does flush the non-empty buffered batch, but the error is only
logged and then swallowed: the run returns success, so the process exits 0
on a transport failure just as it does on normal feed end. -/
theorem c6_amended_stream_error (cfg : LiveCfg)
    (writes : List (Except String Unit)) (msg : String)
    (rest : List StreamItem) (batch : List Document)
    (hw : writes.headD (Except.ok ()) = Except.ok ())
    (hne : batch.isEmpty = false) :
    liveRun cfg writes (StreamItem.errS msg :: rest) batch =
      (Effect.write batch true ::
         (if cfg.healthFile then [Effect.health] else []),
       Except.ok ()) := by
  have hok : (write_to_target cfg.isMongo8 (writes.headD (Except.ok ()))
      batch).fst = Except.ok () := by
    rw [hw]; exact write_to_target_ok cfg.isMongo8 batch
  simp only [liveRun]
  unfold liveFinish
  simp only [hne, Bool.false_eq_true, if_false, hok]

/-- Witness for the amended C6: one buffered document, a stream error, all
writes succeeding — the batch is flushed and the run ends in success. -/
theorem c6_amended_stream_error_witness :
    liveRun ⟨100, false, false, false, false⟩ []
        [StreamItem.errS "connection reset"] [docA] =
      (Effect.write [docA] true ::
         (if (⟨100, false, false, false, false⟩ : LiveCfg).healthFile then
            [Effect.health] else []),
       Except.ok ()) :=
  c6_amended_stream_error ⟨100, false, false, false, false⟩ []
    "connection reset" [] [docA] rfl rfl
